import Mathlib

/-!
Shallow embedding of the specialized constant-pool segment allocator
(src/hotspot/share/oops/cpSegment.hpp, cpSegment.cpp): the two-pass
sizing/layout algorithm of CPSegmentInfo, the packed (index, tag)
descriptor encoding, the layout-order comparator, and the rollback-aware
instance-creation protocol of CPSegmentInfo::create_segment.

Machine integers are modelled as Nat (sizes, offsets, packed values) and
Int (comparator results, the truncating size_to_int).  The metadata arena
hands out zero-initialized blocks, so CInfo fields that a pass does not
write are modelled as 0.
-/

/-- Word size in bytes on the LP64 platforms this code targets. -/
def wordSize : Nat := 8

/-- Constant-pool tag value of CONSTANT_MethodHandle (JVMS table 4.4-B). -/
def JVM_CONSTANT_MethodHandle : Nat := 15

/-- Constant-pool tag value of CONSTANT_Dynamic (JVMS table 4.4-B). -/
def JVM_CONSTANT_Dynamic : Nat := 17

/-- Constant-pool tag value of CONSTANT_InvokeDynamic (JVMS table 4.4-B). -/
def JVM_CONSTANT_InvokeDynamic : Nat := 18

/-- Modelled from the spec: the sentinel "parameter" tag marking the
segment's own binding slot.  Its numeric value is declared outside the
provided sources (jvm.h); only its distinctness from the other supported
tags and its byte range matter to this development. -/
def JVM_CONSTANT_Parameter : Nat := 21

/-- Modelled from the spec: the "linkage placeholder" tag.  Its numeric
value is declared outside the provided sources (jvm.h); only its
distinctness from the other supported tags and its byte range matter. -/
def JVM_CONSTANT_Linkage : Nat := 22

/-- Modelled from the spec: the three segment kinds (class-only,
method-only, class-and-method combined) of ConstantPool::JVM_PARAM_*,
declared outside the provided sources.  Values chosen distinct and
within JVM_PARAM_MASK. -/
def JVM_PARAM_Class : Nat := 1

/-- Modelled from the spec: the method-only segment kind. -/
def JVM_PARAM_MethodOnly : Nat := 2

/-- Modelled from the spec: the combined (method-and-class) segment kind. -/
def JVM_PARAM_MethodAndClass : Nat := 3

/-- Modelled from the spec: mask selecting the param-kind bits of _flags. -/
def JVM_PARAM_MASK : Nat := 3

/-- Modelled from the spec: smallest valid param kind. -/
def JVM_PARAM_MIN : Nat := 1

/-- Modelled from the spec: largest valid param kind. -/
def JVM_PARAM_MAX : Nat := 3

/-- Fixed offsets in the refs array (cpSegment.hpp enum):
binding of CONSTANT_Parameter. -/
def argument_ref_index : Nat := 0

/-- Fixed refs-array slot of the jli.SegmentHandle reflecting the segment. -/
def handle_ref_index : Nat := 1

/-- Fixed refs-array slot of the enclosing class segment's refs array. -/
def cseg_refs_ref_index : Nat := 2

/-- Number of fixed (reserved) slots at the start of every refs array. -/
def fixed_ref_limit : Nat := 3

/-- The align_up utility used by header_size computations. -/
def align_up (x a : Nat) : Nat := ((x + a - 1) / a) * a

/-- Size in bytes of the CPSegmentInfo header on LP64: one ConstantPool
pointer plus six ints (cpSegment.hpp fields _pool .. _constant_count). -/
def sizeofCPSegmentInfo : Nat := 32

/-- Size in bytes of the ConstantPoolSegment header on LP64: _info, _cseg,
_refs (one pointer inside OopHandle) and _segment_list_next. -/
def sizeofConstantPoolSegment : Nat := 32

/-- Size in bytes of CPSegmentInfo::CInfo: three ints. -/
def sizeofCInfo : Nat := 12

/-- CPSegmentInfo::header_size(), in words. -/
def CPSegmentInfo.header_size : Nat := align_up sizeofCPSegmentInfo wordSize / wordSize

/-- ConstantPoolSegment::header_size(), in words. -/
def ConstantPoolSegment.header_size : Nat := align_up sizeofConstantPoolSegment wordSize / wordSize

/-- Setup::byte_size_to_word_size. -/
def byte_size_to_word_size (size_in_bytes : Nat) : Nat :=
  align_up size_in_bytes wordSize / wordSize

/-- Setup::size_to_int: the C++ narrows size_t to int and yields -1 when
the value does not round-trip; for a Nat that is exactly the 2^31 bound. -/
def size_to_int (size : Nat) : Int :=
  if size < 2 ^ 31 then (size : Int) else -1

/-- CInfo::_index_shift. -/
def index_shift : Nat := 8

/-- CInfo::_tag_mask = (1 << _index_shift) - 1. -/
def tag_mask : Nat := (1 <<< index_shift) - 1

/-- CInfo::index_and_tag(index, tag) = (index << 8) | tag. -/
def index_and_tag (index tag : Nat) : Nat := (index <<< index_shift) ||| tag

/-- One CInfo record: packed (index, tag) plus the two computed offsets.
The arena zero-initializes the block, so fields the initialize pass does
not write stay 0. -/
structure CInfo where
  _index_and_tag : Nat
  _offset_in_meta : Nat
  _offset_in_refs : Nat
deriving DecidableEq

/-- CInfo::index(): _index_and_tag >> _index_shift. -/
def CInfo.index (c : CInfo) : Nat := c._index_and_tag >>> index_shift

/-- CInfo::tag(): _index_and_tag & _tag_mask. -/
def CInfo.tag (c : CInfo) : Nat := c._index_and_tag &&& tag_mask

/-- Tag-class collapsing done by the comparator's two switch statements:
JVM_CONSTANT_Linkage is treated as tag value 0 for ordering purposes. -/
def collapse_tag (t : Nat) : Nat := if t = JVM_CONSTANT_Linkage then 0 else t

/-- CInfo::compare_index_and_tag(it1, it2), restructured from the C++
switch statements into nested conditionals with identical results: equal
tags compare by the full packed values; a parameter tag on either side
decides immediately; otherwise the collapsed tag values are compared. -/
def compare_index_and_tag (it1 it2 : Nat) : Int :=
  if (it1 &&& tag_mask) = (it2 &&& 255) then (it1 : Int) - (it2 : Int)
  else if (it1 &&& tag_mask) = JVM_CONSTANT_Parameter then -1
  else if (it2 &&& 255) = JVM_CONSTANT_Parameter then 1
  else (collapse_tag (it1 &&& tag_mask) : Int) - (collapse_tag (it2 &&& 255) : Int)

/-- Boolean "it1 sorts no later than it2" derived from the comparator,
the order used by GrowableArray::sort in pass 1. -/
def leIT (a b : Nat) : Bool := compare_index_and_tag a b ≤ 0

/-- Insert into a list sorted by the comparator. -/
def insertIT (a : Nat) : List Nat → List Nat
  | [] => [a]
  | b :: l => if leIT a b then a :: b :: l else b :: insertIT a l

/-- The pass-1 sort of the packed (index, tag) values.  The comparator is
antisymmetric, so on valid inputs (where it is also transitive) the sorted
order is unique and independent of the sorting algorithm; insertion sort
stands in for the library qsort. -/
def sortIT : List Nat → List Nat
  | [] => []
  | a :: l => insertIT a (sortIT l)

/-- Tags a segment may carry (the cases of the sizing switch). -/
def supportedTag (t : Nat) : Bool :=
  t = JVM_CONSTANT_Parameter || t = JVM_CONSTANT_Linkage ||
  t = JVM_CONSTANT_InvokeDynamic || t = JVM_CONSTANT_Dynamic ||
  t = JVM_CONSTANT_MethodHandle

/-- Storage-bearing tags: the cases that fall into the ssize/nrefs branch
of the sizing switch. -/
def storageTag (t : Nat) : Bool :=
  t = JVM_CONSTANT_Linkage || t = JVM_CONSTANT_InvokeDynamic ||
  t = JVM_CONSTANT_Dynamic || t = JVM_CONSTANT_MethodHandle

/-- The (ssize, nrefs) contribution of one constant in the per-constant
switch of size_and_initialize_passes; none models ShouldNotReachHere. -/
def tag_ssize_nrefs (t : Nat) : Option (Nat × Nat) :=
  if t = JVM_CONSTANT_Parameter then some (0, 0)
  else if storageTag t then some (wordSize, 1)
  else none

/-- The three offset accumulators of CPSegmentInfo::Setup. -/
structure Offsets where
  info_offset : Nat
  segment_offset : Nat
  refs_offset : Nat
deriving DecidableEq

/-- Initial accumulator values set at the top of both passes. -/
def startOffsets : Offsets :=
  { info_offset := CPSegmentInfo.header_size * wordSize
  , segment_offset := ConstantPoolSegment.header_size * wordSize
  , refs_offset := fixed_ref_limit }

/-- The per-constant loop of the sizing pass (initialize_pass = false):
accumulate segment_offset and refs_offset over the sorted packed list. -/
def sizeLoop : List Nat → Nat → Nat → Option (Nat × Nat)
  | [], seg, refs => some (seg, refs)
  | it :: rest, seg, refs =>
    match tag_ssize_nrefs (it &&& tag_mask) with
    | none => none
    | some (ssize, nrefs) => sizeLoop rest (seg + ssize) (refs + nrefs)

/-- The sizing pass over an already sorted packed list: run the loop from
the header offsets, then reserve sizeof(CInfo) bytes per descriptor in
info_offset. -/
def size_pass (its : List Nat) : Option Offsets :=
  match sizeLoop its startOffsets.segment_offset startOffsets.refs_offset with
  | none => none
  | some (seg, refs) =>
    some { info_offset := startOffsets.info_offset + sizeofCInfo * its.length
         , segment_offset := seg
         , refs_offset := refs }

/-- The per-constant loop of the second pass (initialize_pass = true):
identical accumulation, but it also writes each CInfo record.  The code
stores _offset_in_meta unconditionally (the guarded store on the previous
source line is immediately overwritten) and stores _offset_in_refs only
when nrefs != 0; an unwritten field keeps its arena zero. -/
def initLoop : List Nat → Nat → Nat → Option (Nat × Nat × List CInfo)
  | [], seg, refs => some (seg, refs, [])
  | it :: rest, seg, refs =>
    match tag_ssize_nrefs (it &&& tag_mask) with
    | none => none
    | some (ssize, nrefs) =>
      match initLoop rest (seg + ssize) (refs + nrefs) with
      | none => none
      | some (segEnd, refsEnd, cis) =>
        some (segEnd, refsEnd,
          { _index_and_tag := it
          , _offset_in_meta := seg
          , _offset_in_refs := if nrefs ≠ 0 then refs else 0 } :: cis)

/-- The second (initialize) pass over the stored sorted packed list. -/
def init_pass (its : List Nat) : Option (Offsets × List CInfo) :=
  match initLoop its startOffsets.segment_offset startOffsets.refs_offset with
  | none => none
  | some (seg, refs, cis) =>
    some ({ info_offset := startOffsets.info_offset + sizeofCInfo * its.length
          , segment_offset := seg
          , refs_offset := refs }, cis)

/-- The CPSegmentInfo metadata object: the sizing fields recorded by the
constructor plus the trailing CInfo array written by the second pass.
The _pool back pointer is left abstract (it is only pushed by the
relocation hook, modelled separately). -/
structure CPSegmentInfo where
  _segnum : Nat
  _flags : Nat
  _reflen : Int
  _info_size_in_words : Nat
  _segment_size_in_words : Nat
  _constant_count : Nat
  cinfos : List CInfo
deriving DecidableEq

/-- CPSegmentInfo::param_kind(). -/
def CPSegmentInfo.param_kind (i : CPSegmentInfo) : Nat := i._flags &&& JVM_PARAM_MASK

/-- CPSegmentInfo::is_class(). -/
def CPSegmentInfo.is_class (i : CPSegmentInfo) : Bool := i.param_kind = JVM_PARAM_Class

/-- CPSegmentInfo::is_method_only(). -/
def CPSegmentInfo.is_method_only (i : CPSegmentInfo) : Bool := i.param_kind = JVM_PARAM_MethodOnly

/-- CPSegmentInfo::is_method_and_class(). -/
def CPSegmentInfo.is_method_and_class (i : CPSegmentInfo) : Bool :=
  i.param_kind = JVM_PARAM_MethodAndClass

/-- CPSegmentInfo::has_both(). -/
def CPSegmentInfo.has_both (i : CPSegmentInfo) : Bool := i.is_method_and_class

/-- The packed and sorted _indexes_and_tags list that pass 1 builds from
the included constant indices and the pool's tag_at lookup. -/
def sorted_its (tag_at : Nat → Nat) (constants : List Nat) : List Nat :=
  sortIT (constants.map (fun idx => index_and_tag idx (tag_at idx)))

/-- CPSegmentInfo::allocate.  The constant pool is abstracted to its
tag_at lookup.  Debug assertions that guard construction (the param-kind
range check, the sorted-head check, and the pass-agreement check of
same_offsets_as) are modelled as guards whose failure aborts allocation,
and ShouldNotReachHere in the walk surfaces as none from the passes. -/
def CPSegmentInfo.allocate (tag_at : Nat → Nat) (segnum parameter_index param_kind : Nat)
    (constants : List Nat) : Option CPSegmentInfo :=
  if ¬(JVM_PARAM_MIN ≤ param_kind ∧ param_kind ≤ JVM_PARAM_MAX) then none
  else if (sorted_its tag_at constants).head? ≠
      some (index_and_tag parameter_index JVM_CONSTANT_Parameter) then none
  else
    match size_pass (sorted_its tag_at constants) with
    | none => none
    | some off =>
      match init_pass (sorted_its tag_at constants) with
      | none => none
      | some (off2, cis) =>
        if off2 = off then
          some { _segnum := segnum
               , _flags := param_kind
               , _reflen := size_to_int off.refs_offset
               , _info_size_in_words := byte_size_to_word_size off.info_offset
               , _segment_size_in_words := byte_size_to_word_size off.segment_offset
               , _constant_count := (sorted_its tag_at constants).length
               , cinfos := cis }
        else none

/-- Heap object references: none models the null oop, some n an object id. -/
abbrev Oop := Option Nat

/-- A managed-heap object array (the refs array of a segment). -/
structure RefArray where
  elems : List Oop
deriving DecidableEq

/-- One ConstantPoolSegment instance.  Pointers are modelled by ids:
_cseg holds the id of the class segment (the instance's own id encodes
the is_class self-loop) and _refs holds the id of the OopHandle, none
before the handle is stored.  The shape's param_kind is carried in place
of the _info back pointer. -/
structure Segment where
  id : Nat
  info_param_kind : Nat
  _cseg : Option Nat
  _refs : Option Nat
deriving DecidableEq

/-- ConstantPoolSegment::is_class(): the _cseg self-loop test. -/
def Segment.is_class (s : Segment) : Bool := s._cseg = some s.id

/-- ConstantPoolSegment::has_refs() / is_specialized(): an instance is
active when its _refs handle is present. -/
def Segment.is_active (s : Segment) : Bool := s._refs.isSome

/-- The mutable state touched by create_segment: the loader's OopHandle
table, the shape's intrusive instance list (head first; the
_segment_list_next chain is represented by list order), fresh-id counters,
and ghost counters of handle acquisitions and releases. -/
structure JVMState where
  handle_table : List (Nat × RefArray)
  next_handle : Nat
  next_seg_id : Nat
  seg_list : List Segment
  acquires : Nat
  releases : Nat
deriving DecidableEq

/-- ClassLoaderData::add_handle: register the array under a fresh handle. -/
def add_handle (st : JVMState) (arr : RefArray) : Nat × JVMState :=
  (st.next_handle,
   { st with handle_table := (st.next_handle, arr) :: st.handle_table
           , next_handle := st.next_handle + 1
           , acquires := st.acquires + 1 })

/-- ClassLoaderData::remove_handle: release the handle. -/
def remove_handle (st : JVMState) (h : Nat) : JVMState :=
  { st with handle_table := st.handle_table.filter (fun p => p.1 ≠ h)
          , releases := st.releases + 1 }

/-- OopHandle::resolve through the loader's table. -/
def resolve_handle (st : JVMState) (h : Nat) : Option RefArray :=
  (st.handle_table.find? (fun p => p.1 = h)).map Prod.snd

/-- ConstantPoolSegment::ConstantPoolSegment(info, cseg): wire _cseg to a
self-loop when the shape is a class shape, otherwise to the caller's
segment; _refs stays empty (zero-initialized) until the caller stores it. -/
def ConstantPoolSegment.mkSegment (info : CPSegmentInfo) (selfId : Nat)
    (cseg : Option Segment) : Segment :=
  { id := selfId
  , info_param_kind := info.param_kind
  , _cseg := if info.is_class then some selfId else cseg.map Segment.id
  , _refs := none }

/-- CPSegmentInfo::create_segment.  The two independently failing
allocations are driven by the oracles heap_ok (step 1, the objArray
allocation) and meta_ok (step 3, the metaspace allocation): a false
oracle stands for resource exhaustion or a pending asynchronous
termination signal.  Step order follows the source: allocate and
initialize the refs array, wrap it in a loader handle, allocate the
segment metadata (rolling the handle back on failure), store the handle
in the segment, then splice the segment onto the shape's list head under
the borrowed lock (modelled as an atomic update). -/
def CPSegmentInfo.create_segment (info : CPSegmentInfo) (parameter : Oop)
    (cseg : Option Segment) (heap_ok meta_ok : Bool) (st : JVMState) :
    Option Segment × JVMState :=
  if ¬heap_ok then (none, st)
  else
    let refs_oop : RefArray := ⟨(List.replicate info._reflen.toNat (none : Oop)).set
                                  argument_ref_index parameter⟩
    let acq := add_handle st refs_oop
    let refs := acq.1
    let st1 := acq.2
    if ¬meta_ok then (none, remove_handle st1 refs)
    else
      let seg0 := ConstantPoolSegment.mkSegment info st1.next_seg_id cseg
      let seg := { seg0 with _refs := some refs }
      (some seg,
       { st1 with next_seg_id := st1.next_seg_id + 1
                , seg_list := seg :: st1.seg_list })

/-- CPSegmentInfo::first_seg on the modelled state. -/
def first_seg (st : JVMState) : Option Segment := st.seg_list.head?

/-- The set of instances reachable by first_seg/next_seg traversal: with
the intrusive next chain represented by list order, traversal yields
exactly the list elements. -/
def reachable_segs (st : JVMState) : List Segment := st.seg_list

/-- The pointer fields that the two metaspace_pointers_do hooks can talk
about.  list_head names the shape's instance-list-head location; the
shape itself stores no such field (segment_list_head() delegates to
ConstantPool::segment_list_head_at), and refs_handle names the managed
heap handle, which is not a metaspace pointer. -/
inductive MetaPtrField where
  | info
  | segment_list_next
  | cseg
  | refs_handle
  | pool
  | list_head
deriving DecidableEq

/-- ConstantPoolSegment::metaspace_pointers_do pushes _info,
_segment_list_next and _cseg, in source order. -/
def ConstantPoolSegment.metaspace_pointers_do : List MetaPtrField :=
  [MetaPtrField.info, MetaPtrField.segment_list_next, MetaPtrField.cseg]

/-- CPSegmentInfo::metaspace_pointers_do pushes _pool only. -/
def CPSegmentInfo.metaspace_pointers_do : List MetaPtrField :=
  [MetaPtrField.pool]

/-- The spec's ordering requirement on the sorted descriptor list, stated
on unpacked (index, tag) pairs.  A packed value is valid when its tag is
drawn from the supported tag set and the packed value fits the int range
the comparator assumes. -/
def ValidIT (it : Nat) : Prop := supportedTag (it &&& tag_mask) = true ∧ it < 2 ^ 31

/-- The non-strict order induced by the comparator. -/
def leProp (a b : Nat) : Prop := compare_index_and_tag a b ≤ 0

/-- Number of storage-bearing constants in a packed list. -/
def storageCount (its : List Nat) : Nat :=
  (its.filter (fun it => storageTag (it &&& tag_mask))).length

theorem tag_mask_eq : tag_mask = 255 := by decide

theorem pack_eq_add (i t : Nat) (ht : t < 256) : index_and_tag i t = 256 * i + t := by
  unfold index_and_tag index_shift
  rw [Nat.shiftLeft_eq, Nat.mul_comm i (2 ^ 8), ← Nat.mul_add_lt_is_or ht]

theorem mask_eq_mod (x : Nat) : x &&& 255 = x % 256 := by
  have h := Nat.and_pow_two_sub_one_eq_mod x 8
  norm_num at h
  exact h

theorem unpack_index (i t : Nat) (ht : t < 256) : index_and_tag i t >>> 8 = i := by
  rw [pack_eq_add i t ht, Nat.shiftRight_eq_div_pow]
  norm_num
  omega

theorem unpack_tag (i t : Nat) (ht : t < 256) : index_and_tag i t &&& 255 = t := by
  rw [pack_eq_add i t ht, mask_eq_mod]
  omega

theorem supported_cases {t : Nat} (h : supportedTag t = true) :
    t = JVM_CONSTANT_Parameter ∨ t = JVM_CONSTANT_Linkage ∨ t = JVM_CONSTANT_InvokeDynamic ∨
    t = JVM_CONSTANT_Dynamic ∨ t = JVM_CONSTANT_MethodHandle := by
  simp [supportedTag] at h
  tauto

theorem supported_lt {t : Nat} (h : supportedTag t = true) : t < 256 := by
  rcases supported_cases h with h1 | h1 | h1 | h1 | h1 <;> subst h1 <;> decide

/-- Rank function characterizing the comparator's order on valid packed
values: parameter-tagged values rank below everything else and among
themselves by packed value; other values rank by collapsed tag first and
packed value second. -/
def layout_rank (it : Nat) : Nat :=
  if it &&& tag_mask = JVM_CONSTANT_Parameter then it
  else (1 + collapse_tag (it &&& tag_mask)) * 2 ^ 31 + it

theorem compare_antisymm (a b : Nat) :
    compare_index_and_tag a b = -compare_index_and_tag b a := by
  unfold compare_index_and_tag
  rw [tag_mask_eq]
  split_ifs <;> omega

theorem le_iff_rank {a b : Nat} (ha : ValidIT a) (hb : ValidIT b) :
    leProp a b ↔ layout_rank a ≤ layout_rank b := by
  obtain ⟨hta, hba⟩ := ha
  obtain ⟨htb, hbb⟩ := hb
  unfold leProp compare_index_and_tag layout_rank collapse_tag
  rw [tag_mask_eq] at hta htb ⊢
  rcases supported_cases hta with h1 | h1 | h1 | h1 | h1 <;>
    rcases supported_cases htb with h2 | h2 | h2 | h2 | h2 <;>
      simp only [h1, h2, JVM_CONSTANT_Parameter, JVM_CONSTANT_Linkage,
        JVM_CONSTANT_InvokeDynamic, JVM_CONSTANT_Dynamic, JVM_CONSTANT_MethodHandle,
        reduceIte, Nat.reduceEqDiff] <;>
      norm_num <;> omega

theorem leProp_total (a b : Nat) : leProp a b ∨ leProp b a := by
  unfold leProp
  rw [compare_antisymm a b]
  omega

theorem leProp_trans {a b c : Nat} (ha : ValidIT a) (hb : ValidIT b) (hc : ValidIT c)
    (hab : leProp a b) (hbc : leProp b c) : leProp a c := by
  rw [le_iff_rank ha hb] at hab
  rw [le_iff_rank hb hc] at hbc
  rw [le_iff_rank ha hc]
  omega
theorem leIT_iff (a b : Nat) : leIT a b = true ↔ leProp a b := by
  unfold leIT leProp
  simp

theorem insertIT_perm (a : Nat) (l : List Nat) : List.Perm (insertIT a l) (a :: l) := by
  induction l with
  | nil => exact List.Perm.refl _
  | cons b t ih =>
    unfold insertIT
    split
    · exact List.Perm.refl _
    · exact ((ih.cons b).trans (List.Perm.swap a b t))

theorem sortIT_perm (l : List Nat) : List.Perm (sortIT l) l := by
  induction l with
  | nil => exact List.Perm.refl _
  | cons a t ih => exact (insertIT_perm a (sortIT t)).trans (ih.cons a)

theorem insertIT_pairwise {a : Nat} {l : List Nat} (ha : ValidIT a)
    (hl : ∀ x ∈ l, ValidIT x) (hp : l.Pairwise leProp) :
    (insertIT a l).Pairwise leProp := by
  induction l with
  | nil => simp [insertIT]
  | cons b t ih =>
    have hb : ValidIT b := hl b (by simp)
    have ht : ∀ x ∈ t, ValidIT x := fun x hx => hl x (by simp [hx])
    rw [List.pairwise_cons] at hp
    unfold insertIT
    split
    · rename_i hab
      rw [leIT_iff] at hab
      refine List.pairwise_cons.mpr ⟨?_, List.pairwise_cons.mpr hp⟩
      intro x hx
      rw [List.mem_cons] at hx
      rcases hx with rfl | hx
      · exact hab
      · exact leProp_trans ha hb (ht x hx) hab (hp.1 x hx)
    · rename_i hab
      rw [leIT_iff] at hab
      have hba : leProp b a := (leProp_total a b).resolve_left hab
      refine List.pairwise_cons.mpr ⟨?_, ih ht hp.2⟩
      intro x hx
      have hx2 := (insertIT_perm a t).mem_iff.mp hx
      rw [List.mem_cons] at hx2
      rcases hx2 with rfl | hx2
      · exact hba
      · exact hp.1 x hx2

theorem sortIT_pairwise {l : List Nat} (hl : ∀ x ∈ l, ValidIT x) :
    (sortIT l).Pairwise leProp := by
  induction l with
  | nil => exact List.Pairwise.nil
  | cons a t ih =>
    have ha : ValidIT a := hl a (by simp)
    have ht : ∀ x ∈ t, ValidIT x := fun x hx => hl x (by simp [hx])
    have hst : ∀ x ∈ sortIT t, ValidIT x := fun x hx =>
      ht x ((sortIT_perm t).mem_iff.mp hx)
    exact insertIT_pairwise ha hst (ih ht)

theorem storageTag_of_supported {t : Nat} (h : supportedTag t = true)
    (hpar : t ≠ JVM_CONSTANT_Parameter) : storageTag t = true := by
  rcases supported_cases h with h1 | h1 | h1 | h1 | h1 <;> subst h1 <;>
    first
    | exact absurd rfl hpar
    | decide

theorem storageTag_param : storageTag JVM_CONSTANT_Parameter = false := by decide

theorem sizeLoop_closed_form (l : List Nat) :
    ∀ seg refs, (∀ it ∈ l, supportedTag (it &&& tag_mask) = true) →
    sizeLoop l seg refs = some (seg + wordSize * storageCount l, refs + storageCount l) := by
  induction l with
  | nil => intro seg refs _; simp [sizeLoop, storageCount]
  | cons it rest ih =>
    intro seg refs hsup
    have hit : supportedTag (it &&& tag_mask) = true := hsup it (by simp)
    have hrest : ∀ x ∈ rest, supportedTag (x &&& tag_mask) = true :=
      fun x hx => hsup x (by simp [hx])
    by_cases hpar : it &&& tag_mask = JVM_CONSTANT_Parameter
    · have hss : tag_ssize_nrefs (it &&& tag_mask) = some (0, 0) := by
        unfold tag_ssize_nrefs
        rw [if_pos hpar]
      have hsc : storageCount (it :: rest) = storageCount rest := by
        simp [storageCount, hpar, storageTag_param]
      simp only [sizeLoop, hss, hsc]
      rw [ih _ _ hrest]
      simp
    · have hst : storageTag (it &&& tag_mask) = true := storageTag_of_supported hit hpar
      have hss : tag_ssize_nrefs (it &&& tag_mask) = some (wordSize, 1) := by
        unfold tag_ssize_nrefs
        rw [if_neg hpar, if_pos hst]
      have hsc : storageCount (it :: rest) = storageCount rest + 1 := by
        simp [storageCount, hst]
      simp only [sizeLoop, hss, hsc]
      rw [ih _ _ hrest]
      simp only [Option.some.injEq, Prod.mk.injEq, wordSize]
      omega

theorem supported_of_storage {t : Nat} (h : storageTag t = true) : supportedTag t = true := by
  simp only [storageTag, Bool.or_eq_true, decide_eq_true_eq] at h
  simp only [supportedTag, Bool.or_eq_true, decide_eq_true_eq]
  tauto

theorem tag_ssize_nrefs_eq_none {t : Nat} (h : supportedTag t = false) :
    tag_ssize_nrefs t = none := by
  unfold tag_ssize_nrefs
  split_ifs with h1 h2
  · subst h1
    have : supportedTag JVM_CONSTANT_Parameter = true := by decide
    rw [this] at h
    cases h
  · rw [supported_of_storage h2] at h
    cases h
  · rfl

theorem sizeLoop_none_of_unsupported {l : List Nat} {x : Nat} (hmem : x ∈ l)
    (hx : supportedTag (x &&& tag_mask) = false) :
    ∀ seg refs, sizeLoop l seg refs = none := by
  induction l with
  | nil => cases hmem
  | cons it rest ih =>
    intro seg refs
    rw [List.mem_cons] at hmem
    by_cases hit : supportedTag (it &&& tag_mask) = true
    · rcases hmem with rfl | hmem
      · rw [hit] at hx; cases hx
      · rcases hss : tag_ssize_nrefs (it &&& tag_mask) with _ | ⟨ssize, nrefs⟩
        · simp [sizeLoop, hss]
        · simp only [sizeLoop, hss]
          exact ih hmem _ _
    · simp only [Bool.not_eq_true] at hit
      simp [sizeLoop, tag_ssize_nrefs_eq_none hit]

theorem initLoop_agrees (l : List Nat) :
    ∀ seg refs s r, sizeLoop l seg refs = some (s, r) →
    ∃ cis, initLoop l seg refs = some (s, r, cis) := by
  induction l with
  | nil =>
    intro seg refs s r h
    simp only [sizeLoop, Option.some.injEq, Prod.mk.injEq] at h
    exact ⟨[], by simp [initLoop, h.1, h.2]⟩
  | cons it rest ih =>
    intro seg refs s r h
    rcases hss : tag_ssize_nrefs (it &&& tag_mask) with _ | ⟨ssize, nrefs⟩
    · rw [sizeLoop, hss] at h
      cases h
    · rw [sizeLoop, hss] at h
      obtain ⟨cis, hcis⟩ := ih _ _ _ _ h
      refine ⟨{ _index_and_tag := it, _offset_in_meta := seg,
                _offset_in_refs := if nrefs ≠ 0 then refs else 0 } :: cis, ?_⟩
      rw [initLoop, hss]
      simp [hcis]

theorem init_pass_agrees {its : List Nat} {off : Offsets} (h : size_pass its = some off) :
    ∃ cis, init_pass its = some (off, cis) := by
  unfold size_pass at h
  rcases hsz : sizeLoop its startOffsets.segment_offset startOffsets.refs_offset
    with _ | ⟨seg, refs⟩
  · rw [hsz] at h; cases h
  · rw [hsz] at h
    obtain ⟨cis, hcis⟩ := initLoop_agrees its _ _ _ _ hsz
    refine ⟨cis, ?_⟩
    unfold init_pass
    rw [hcis]
    simp only [Option.some.injEq, Prod.mk.injEq] at h ⊢
    exact ⟨h, trivial⟩

theorem size_pass_closed_form {its : List Nat}
    (hsup : ∀ it ∈ its, supportedTag (it &&& tag_mask) = true) :
    size_pass its =
      some { info_offset := CPSegmentInfo.header_size * wordSize + sizeofCInfo * its.length
           , segment_offset := ConstantPoolSegment.header_size * wordSize
               + wordSize * storageCount its
           , refs_offset := fixed_ref_limit + storageCount its } := by
  unfold size_pass
  rw [sizeLoop_closed_form its _ _ hsup]
  simp [startOffsets]

theorem size_pass_offsets {its : List Nat} {off : Offsets} (h : size_pass its = some off) :
    off.info_offset = CPSegmentInfo.header_size * wordSize + sizeofCInfo * its.length ∧
    off.segment_offset = ConstantPoolSegment.header_size * wordSize
        + wordSize * storageCount its ∧
    off.refs_offset = fixed_ref_limit + storageCount its := by
  have hsup : ∀ it ∈ its, supportedTag (it &&& tag_mask) = true := by
    by_contra hbad
    push_neg at hbad
    obtain ⟨x, hmem, hx⟩ := hbad
    have hx2 : supportedTag (x &&& tag_mask) = false := by simpa using hx
    unfold size_pass at h
    rw [sizeLoop_none_of_unsupported hmem hx2] at h
    cases h
  rw [size_pass_closed_form hsup] at h
  simp only [Option.some.injEq] at h
  subst h
  exact ⟨rfl, rfl, rfl⟩

theorem allocate_inversion {tag_at : Nat → Nat} {segnum pidx pk : Nat}
    {constants : List Nat} {info : CPSegmentInfo}
    (h : CPSegmentInfo.allocate tag_at segnum pidx pk constants = some info) :
    JVM_PARAM_MIN ≤ pk ∧ pk ≤ JVM_PARAM_MAX ∧
    ∃ off cis,
      (sorted_its tag_at constants).head? =
        some (index_and_tag pidx JVM_CONSTANT_Parameter) ∧
      size_pass (sorted_its tag_at constants) = some off ∧
      init_pass (sorted_its tag_at constants) = some (off, cis) ∧
      info = { _segnum := segnum
             , _flags := pk
             , _reflen := size_to_int off.refs_offset
             , _info_size_in_words := byte_size_to_word_size off.info_offset
             , _segment_size_in_words := byte_size_to_word_size off.segment_offset
             , _constant_count := (sorted_its tag_at constants).length
             , cinfos := cis } := by
  unfold CPSegmentInfo.allocate at h
  split_ifs at h with h1 h2
  refine ⟨h1.1, h1.2, ?_⟩
  rcases hsz : size_pass (sorted_its tag_at constants) with _ | off
  · rw [hsz] at h; cases h
  · rw [hsz] at h
    rcases hini : init_pass (sorted_its tag_at constants) with _ | ⟨off2, cis⟩
    · rw [hini] at h; cases h
    · rw [hini] at h
      dsimp only at h
      split_ifs at h with h3
      subst h3
      simp only [Option.some.injEq] at h
      push_neg at h2
      exact ⟨off2, cis, h2, rfl, rfl, h.symm⟩

theorem sorted_its_supported {tag_at : Nat → Nat} {constants : List Nat}
    (hsup : ∀ idx ∈ constants, supportedTag (tag_at idx) = true) :
    ∀ x ∈ sorted_its tag_at constants, supportedTag (x &&& tag_mask) = true := by
  intro x hx
  have hx2 : x ∈ constants.map (fun idx => index_and_tag idx (tag_at idx)) :=
    (sortIT_perm _).mem_iff.mp hx
  rw [List.mem_map] at hx2
  obtain ⟨idx, hidx, rfl⟩ := hx2
  have ht := hsup idx hidx
  rw [tag_mask_eq, unpack_tag idx (tag_at idx) (supported_lt ht)]
  exact ht

theorem sorted_its_length (tag_at : Nat → Nat) (constants : List Nat) :
    (sorted_its tag_at constants).length = constants.length := by
  unfold sorted_its
  rw [(sortIT_perm _).length_eq, List.length_map]

instance ValidIT.decidable : DecidablePred ValidIT := fun it =>
  decidable_of_iff (supportedTag (it &&& tag_mask) = true ∧ it < 2 ^ 31) Iff.rfl

theorem storageCount_le (its : List Nat) : storageCount its ≤ its.length := by
  unfold storageCount
  exact List.length_filter_le _ its

theorem init_pass_head {it : Nat} {rest : List Nat} {off : Offsets} {cis : List CInfo}
    (h : init_pass (it :: rest) = some (off, cis))
    (hzero : tag_ssize_nrefs (it &&& tag_mask) = some (0, 0)) :
    ∃ cis2, cis = { _index_and_tag := it
                  , _offset_in_meta := ConstantPoolSegment.header_size * wordSize
                  , _offset_in_refs := 0 } :: cis2 := by
  unfold init_pass at h
  rcases hloop : initLoop (it :: rest) startOffsets.segment_offset startOffsets.refs_offset
    with _ | ⟨seg, refs, cis0⟩
  · rw [hloop] at h; cases h
  · rw [hloop] at h
    rw [initLoop, hzero] at hloop
    dsimp only at h hloop
    rcases hrest : initLoop rest (startOffsets.segment_offset + 0)
        (startOffsets.refs_offset + 0) with _ | ⟨segEnd, refsEnd, cis1⟩
    · rw [hrest] at hloop; cases hloop
    · rw [hrest] at hloop
      dsimp only at h hloop
      simp only [Option.some.injEq, Prod.mk.injEq] at h hloop
      refine ⟨cis1, ?_⟩
      rw [← h.2, ← hloop.2.2]
      simp [startOffsets]

/-- C10: for every index i < 2^23 and tag t ≤ 255, the packed encoding
CInfo::index_and_tag(i, t) round-trips: a CInfo whose _index_and_tag field
equals index_and_tag i t satisfies index() = i and tag() = t. -/
theorem claim_C10_pack_roundtrip (i t : Nat) (hi : i < 2 ^ 23) (ht : t ≤ 255) :
    ∀ c : CInfo, c._index_and_tag = index_and_tag i t → c.index = i ∧ c.tag = t := by
  intro c hc
  have ht2 : t < 256 := by omega
  constructor
  · rw [CInfo.index, hc]
    exact unpack_index i t ht2
  · rw [CInfo.tag, hc, tag_mask_eq]
    exact unpack_tag i t ht2

/-- Witness for C10 at i = 3, t = 17. -/
theorem claim_C10_pack_roundtrip_witness :
    (3 : Nat) < 2 ^ 23 ∧ (17 : Nat) ≤ 255 ∧
    ({ _index_and_tag := index_and_tag 3 17, _offset_in_meta := 0, _offset_in_refs := 0
       : CInfo }.index = 3 ∧
     { _index_and_tag := index_and_tag 3 17, _offset_in_meta := 0, _offset_in_refs := 0
       : CInfo }.tag = 17) :=
  ⟨by decide, by decide,
   claim_C10_pack_roundtrip 3 17 (by decide) (by decide) _ rfl⟩

/-- C1: for every valid allocate input (every included constant carries a
supported tag), the sizing pass succeeds, and re-running the layout walk
as the initialize pass produces exactly the same three offset
accumulators, so the offsets used to place descriptors reproduce the
offsets used to size the allocation (the same_offsets_as check that
aborts construction on a mismatch always passes). -/
theorem claim_C1_passes_agree (tag_at : Nat → Nat) (constants : List Nat)
    (hsup : ∀ idx ∈ constants, supportedTag (tag_at idx) = true) :
    ∃ off cis, size_pass (sorted_its tag_at constants) = some off ∧
      init_pass (sorted_its tag_at constants) = some (off, cis) := by
  have hall := sorted_its_supported hsup
  have hsz := size_pass_closed_form hall
  obtain ⟨cis, hcis⟩ := init_pass_agrees hsz
  exact ⟨_, cis, hsz, hcis⟩

/-- Witness for C1 on the spec's ordering scenario: tags parameter,
linkage, dynamic and method-handle at indices 5, 2, 9, 3. -/
theorem claim_C1_passes_agree_witness :
    ∃ off cis,
      size_pass (sorted_its (fun idx =>
        if idx = 5 then JVM_CONSTANT_Parameter
        else if idx = 2 then JVM_CONSTANT_Linkage
        else if idx = 9 then JVM_CONSTANT_Dynamic
        else if idx = 3 then JVM_CONSTANT_MethodHandle
        else 0) [5, 2, 9, 3]) = some off ∧
      init_pass (sorted_its (fun idx =>
        if idx = 5 then JVM_CONSTANT_Parameter
        else if idx = 2 then JVM_CONSTANT_Linkage
        else if idx = 9 then JVM_CONSTANT_Dynamic
        else if idx = 3 then JVM_CONSTANT_MethodHandle
        else 0) [5, 2, 9, 3]) = some (off, cis) :=
  claim_C1_passes_agree _ [5, 2, 9, 3] (by decide)

/-- C3: the pass-1 comparator realizes the documented total order on
packed (index, tag) values: a parameter-tagged pair orders before every
non-parameter pair regardless of index (and after: the mirror case);
pairs with equal tags are ordered by source index (the comparison is a
positive multiple of the index difference); all remaining pairs are
ordered by their collapsed raw tag value, with linkage collapsing to tag
class 0.  Consequently sorting with the comparator yields a permutation
of the input that is sorted in this order. -/
theorem claim_C3_comparator_order :
    (∀ i1 t1 i2 t2 : Nat, i1 < 2 ^ 23 → i2 < 2 ^ 23 → t1 ≤ 255 → t2 ≤ 255 →
      ((t1 = JVM_CONSTANT_Parameter → t2 ≠ JVM_CONSTANT_Parameter →
         compare_index_and_tag (index_and_tag i1 t1) (index_and_tag i2 t2) < 0) ∧
       (t1 ≠ JVM_CONSTANT_Parameter → t2 = JVM_CONSTANT_Parameter →
         0 < compare_index_and_tag (index_and_tag i1 t1) (index_and_tag i2 t2)) ∧
       (t1 = t2 →
         compare_index_and_tag (index_and_tag i1 t1) (index_and_tag i2 t2)
           = 256 * ((i1 : Int) - (i2 : Int))) ∧
       (t1 ≠ JVM_CONSTANT_Parameter → t2 ≠ JVM_CONSTANT_Parameter → t1 ≠ t2 →
         compare_index_and_tag (index_and_tag i1 t1) (index_and_tag i2 t2)
           = (collapse_tag t1 : Int) - (collapse_tag t2 : Int)))) ∧
    (∀ l : List Nat, (∀ x ∈ l, ValidIT x) →
      (sortIT l).Pairwise leProp ∧ List.Perm (sortIT l) l) := by
  constructor
  · intro i1 t1 i2 t2 hi1 hi2 ht1 ht2
    have e1 : index_and_tag i1 t1 &&& 255 = t1 := unpack_tag i1 t1 (by omega)
    have e2 : index_and_tag i2 t2 &&& 255 = t2 := unpack_tag i2 t2 (by omega)
    refine ⟨?_, ?_, ?_, ?_⟩
    · intro hp1 hp2
      unfold compare_index_and_tag
      rw [tag_mask_eq, e1, e2, if_neg (by rw [hp1]; exact fun hh => hp2 hh.symm),
        if_pos hp1]
      decide
    · intro hp1 hp2
      unfold compare_index_and_tag
      rw [tag_mask_eq, e1, e2, if_neg (by rw [hp2]; exact hp1), if_neg hp1, if_pos hp2]
      decide
    · intro heq
      unfold compare_index_and_tag
      subst heq
      rw [tag_mask_eq, e1, e2, if_pos rfl,
        pack_eq_add i1 t1 (by omega), pack_eq_add i2 t1 (by omega)]
      push_cast
      ring
    · intro hp1 hp2 hne
      unfold compare_index_and_tag
      rw [tag_mask_eq, e1, e2, if_neg hne, if_neg hp1, if_neg hp2]
  · intro l hl
    exact ⟨sortIT_pairwise hl, sortIT_perm l⟩

/-- Witness for C3: the first component at the parameter pair (5, 21)
versus the dynamic pair (9, 17), and the second component on the packed
list of the spec's ordering scenario. -/
theorem claim_C3_comparator_order_witness :
    (compare_index_and_tag (index_and_tag 5 JVM_CONSTANT_Parameter)
       (index_and_tag 9 JVM_CONSTANT_Dynamic) < 0) ∧
    ((sortIT [1301, 534, 783, 2321]).Pairwise leProp ∧
      List.Perm (sortIT [1301, 534, 783, 2321]) [1301, 534, 783, 2321]) :=
  ⟨(claim_C3_comparator_order.1 5 JVM_CONSTANT_Parameter 9 JVM_CONSTANT_Dynamic
      (by decide) (by decide) (by decide) (by decide)).1 rfl (by decide),
   claim_C3_comparator_order.2 [1301, 534, 783, 2321] (by decide)⟩

/-- C7: during a layout pass each storage-bearing constant (linkage,
invokedynamic, dynamic, method-handle) contributes exactly one word to
the metadata-block offset and one slot to the reference-array offset,
the parameter tag contributes nothing to either accumulator, any other
tag is fatal (the walk aborts), and the info block reserves
sizeof(CInfo) bytes per descriptor after its header. -/
theorem claim_C7_per_tag_contributions :
    tag_ssize_nrefs JVM_CONSTANT_Parameter = some (0, 0) ∧
    (∀ t, storageTag t = true → tag_ssize_nrefs t = some (wordSize, 1)) ∧
    (∀ t, supportedTag t = false → tag_ssize_nrefs t = none) ∧
    (∀ its off, size_pass its = some off →
      off.segment_offset = ConstantPoolSegment.header_size * wordSize
          + wordSize * storageCount its ∧
      off.refs_offset = fixed_ref_limit + storageCount its ∧
      off.info_offset = CPSegmentInfo.header_size * wordSize + sizeofCInfo * its.length) := by
  refine ⟨by decide, ?_, ?_, ?_⟩
  · intro t ht
    have hpar : ¬(t = JVM_CONSTANT_Parameter) := by
      intro hh
      rw [hh] at ht
      cases ht
    unfold tag_ssize_nrefs
    rw [if_neg hpar, if_pos ht]
  · intro t ht
    exact tag_ssize_nrefs_eq_none ht
  · intro its off h
    obtain ⟨h1, h2, h3⟩ := size_pass_offsets h
    exact ⟨h2, h3, h1⟩

/-- Witness for C7: the storage clause at the linkage tag, the fatal
clause at tag 6, and the offsets clause at the sorted scenario list. -/
theorem claim_C7_per_tag_contributions_witness :
    tag_ssize_nrefs JVM_CONSTANT_Linkage = some (wordSize, 1) ∧
    tag_ssize_nrefs 6 = none ∧
    ((80 : Nat) = CPSegmentInfo.header_size * wordSize
        + sizeofCInfo * [1301, 534, 783, 2321].length) ∧
    (∀ off, size_pass [1301, 534, 783, 2321] = some off →
      off.refs_offset = fixed_ref_limit + storageCount [1301, 534, 783, 2321]) :=
  ⟨(claim_C7_per_tag_contributions.2.1 JVM_CONSTANT_Linkage (by decide)),
   (claim_C7_per_tag_contributions.2.2.1 6 (by decide)),
   by decide,
   fun off h => ((claim_C7_per_tag_contributions.2.2.2 [1301, 534, 783, 2321] off h).2.1)⟩

/-- Tag lookup of the spec's ordering scenario: tags parameter, linkage,
dynamic, method-handle at indices 5, 2, 9, 3. -/
def exTagAt : Nat → Nat := fun idx =>
  if idx = 5 then JVM_CONSTANT_Parameter
  else if idx = 2 then JVM_CONSTANT_Linkage
  else if idx = 9 then JVM_CONSTANT_Dynamic
  else if idx = 3 then JVM_CONSTANT_MethodHandle
  else 0

/-- Included constant indices of the scenario. -/
def exConstants : List Nat := [5, 2, 9, 3]

/-- The shape that allocate builds for the scenario. -/
def exInfo : CPSegmentInfo :=
  { _segnum := 1, _flags := 1, _reflen := 6, _info_size_in_words := 10
  , _segment_size_in_words := 7, _constant_count := 4
  , cinfos := [ { _index_and_tag := 1301, _offset_in_meta := 32, _offset_in_refs := 0 }
              , { _index_and_tag := 534, _offset_in_meta := 32, _offset_in_refs := 3 }
              , { _index_and_tag := 783, _offset_in_meta := 40, _offset_in_refs := 4 }
              , { _index_and_tag := 2321, _offset_in_meta := 48, _offset_in_refs := 5 } ] }

/-- C4: whenever allocate succeeds, the constant descriptor at sub-index 0
carries the parameter tag packed with the supplied parameter index, and
its _offset_in_refs is the fixed binding slot _argument_ref_index = 0 of
the reference array (the parameter descriptor reserves no slot of its
own, so the field keeps the zero-initialized value, which is exactly the
fixed slot). -/
theorem claim_C4_parameter_descriptor (tag_at : Nat → Nat)
    (segnum pidx pk : Nat) (constants : List Nat) (info : CPSegmentInfo)
    (h : CPSegmentInfo.allocate tag_at segnum pidx pk constants = some info) :
    ∃ ci cis2, info.cinfos = ci :: cis2 ∧
      ci._index_and_tag = index_and_tag pidx JVM_CONSTANT_Parameter ∧
      ci.tag = JVM_CONSTANT_Parameter ∧ ci.index = pidx ∧
      ci._offset_in_refs = argument_ref_index := by
  obtain ⟨-, -, off, cis, hhead, hsz, hini, hinfo⟩ := allocate_inversion h
  rcases hits : sorted_its tag_at constants with _ | ⟨it0, rest⟩
  · rw [hits] at hhead; cases hhead
  · rw [hits] at hhead hini
    simp only [List.head?, Option.some.injEq] at hhead
    subst hhead
    have htag : index_and_tag pidx JVM_CONSTANT_Parameter &&& tag_mask
        = JVM_CONSTANT_Parameter := by
      rw [tag_mask_eq]
      exact unpack_tag pidx JVM_CONSTANT_Parameter (by decide)
    have hzero : tag_ssize_nrefs
        (index_and_tag pidx JVM_CONSTANT_Parameter &&& tag_mask) = some (0, 0) := by
      unfold tag_ssize_nrefs
      rw [htag, if_pos rfl]
    obtain ⟨cis2, hcis⟩ := init_pass_head hini hzero
    refine ⟨{ _index_and_tag := index_and_tag pidx JVM_CONSTANT_Parameter
            , _offset_in_meta := ConstantPoolSegment.header_size * wordSize
            , _offset_in_refs := 0 }, cis2, ?_, rfl, ?_, ?_, rfl⟩
    · rw [hinfo]
      exact hcis
    · show index_and_tag pidx JVM_CONSTANT_Parameter &&& tag_mask = JVM_CONSTANT_Parameter
      exact htag
    · show index_and_tag pidx JVM_CONSTANT_Parameter >>> index_shift = pidx
      exact unpack_index pidx JVM_CONSTANT_Parameter (by decide)

/-- Witness for C4 on the scenario shape. -/
theorem claim_C4_parameter_descriptor_witness :
    ∃ ci cis2, exInfo.cinfos = ci :: cis2 ∧
      ci._index_and_tag = index_and_tag 5 JVM_CONSTANT_Parameter ∧
      ci.tag = JVM_CONSTANT_Parameter ∧ ci.index = 5 ∧
      ci._offset_in_refs = argument_ref_index :=
  claim_C4_parameter_descriptor exTagAt 1 5 1 exConstants exInfo (by decide)

/-- C8: every successfully constructed shape records a reference-array
length of at least the fixed minimum of reserved slots (the binding
argument slot, the segment-handle slot and the enclosing-refs slot that
make up _fixed_ref_limit), for any number of included constants small
enough not to overflow the int conversion. -/
theorem claim_C8_reflen_minimum (tag_at : Nat → Nat) (segnum pidx pk : Nat)
    (constants : List Nat) (info : CPSegmentInfo)
    (hlen : constants.length ≤ 2 ^ 31 - 4)
    (h : CPSegmentInfo.allocate tag_at segnum pidx pk constants = some info) :
    (fixed_ref_limit : Int) ≤ info._reflen := by
  obtain ⟨-, -, off, cis, -, hsz, -, hinfo⟩ := allocate_inversion h
  obtain ⟨-, -, h3⟩ := size_pass_offsets hsz
  have hcount := storageCount_le (sorted_its tag_at constants)
  rw [sorted_its_length] at hcount
  have hb : off.refs_offset < 2 ^ 31 := by
    rw [h3]
    unfold fixed_ref_limit
    omega
  rw [hinfo]
  show (fixed_ref_limit : Int) ≤ size_to_int off.refs_offset
  unfold size_to_int
  rw [if_pos hb, h3]
  unfold fixed_ref_limit
  push_cast
  omega

/-- Witness for C8 on the scenario shape (reflen 6 ≥ 3). -/
theorem claim_C8_reflen_minimum_witness : (fixed_ref_limit : Int) ≤ exInfo._reflen :=
  claim_C8_reflen_minimum exTagAt 1 5 1 exConstants exInfo (by decide) (by decide)

/-- C2: when the heap allocation of the refs array succeeds (step 1) but
the metaspace allocation of the ConstantPoolSegment fails (step 3), the
handle acquired in step 1 is released exactly once before the failure is
propagated as a null result: exactly one acquire and one release happen
during the call, the loader's handle table is restored, and the shape's
instance list is unchanged. -/
theorem claim_C2_rollback_on_metadata_failure (info : CPSegmentInfo) (parameter : Oop)
    (cseg : Option Segment) (st : JVMState) (seg_res : Option Segment) (st2 : JVMState)
    (hfresh : ∀ p ∈ st.handle_table, p.1 < st.next_handle)
    (h : info.create_segment parameter cseg true false st = (seg_res, st2)) :
    seg_res = none ∧ st2.handle_table = st.handle_table ∧ st2.seg_list = st.seg_list ∧
    st2.acquires = st.acquires + 1 ∧ st2.releases = st.releases + 1 := by
  unfold CPSegmentInfo.create_segment add_handle remove_handle at h
  simp at h
  obtain ⟨h1, h2⟩ := h
  subst h2
  refine ⟨h1.symm, ?_, rfl, rfl, rfl⟩
  apply List.filter_eq_self.mpr
  intro p hp
  have := hfresh p hp
  simp
  omega

/-- A small state with one live handle, used by the create_segment
witnesses. -/
def exSt : JVMState :=
  { handle_table := [(0, ⟨[]⟩)], next_handle := 1, next_seg_id := 0
  , seg_list := [], acquires := 1, releases := 0 }

/-- Witness for C2: under exSt the failing call returns null and restores
the handle table after exactly one extra acquire and release. -/
theorem claim_C2_rollback_on_metadata_failure_witness :
    (CPSegmentInfo.create_segment exInfo (some 42) none true false exSt).1 = none ∧
    (CPSegmentInfo.create_segment exInfo (some 42) none true false exSt).2.handle_table
      = exSt.handle_table ∧
    (CPSegmentInfo.create_segment exInfo (some 42) none true false exSt).2.seg_list
      = exSt.seg_list ∧
    (CPSegmentInfo.create_segment exInfo (some 42) none true false exSt).2.acquires
      = exSt.acquires + 1 ∧
    (CPSegmentInfo.create_segment exInfo (some 42) none true false exSt).2.releases
      = exSt.releases + 1 :=
  claim_C2_rollback_on_metadata_failure exInfo (some 42) none exSt
    (CPSegmentInfo.create_segment exInfo (some 42) none true false exSt).1
    (CPSegmentInfo.create_segment exInfo (some 42) none true false exSt).2
    (by decide) rfl

/-- C5: when create_segment returns normally, the returned instance is
active: its _refs handle resolves through the loader's table to an array
of length _reflen whose fixed argument slot holds the binding argument,
and the instance has been spliced onto the head of the shape's instance
list, hence is reachable by first_seg/next_seg traversal. -/
theorem claim_C5_created_instance_active (info : CPSegmentInfo) (parameter : Oop)
    (cseg : Option Segment) (heap_ok meta_ok : Bool) (st : JVMState)
    (seg : Segment) (st2 : JVMState)
    (hreflen : (fixed_ref_limit : Int) ≤ info._reflen)
    (h : info.create_segment parameter cseg heap_ok meta_ok st = (some seg, st2)) :
    ∃ hid arr, seg._refs = some hid ∧ resolve_handle st2 hid = some arr ∧
      arr.elems.length = info._reflen.toNat ∧
      arr.elems[argument_ref_index]? = some parameter ∧
      first_seg st2 = some seg ∧ seg ∈ reachable_segs st2 := by
  cases heap_ok with
  | false =>
    unfold CPSegmentInfo.create_segment at h
    simp at h
  | true =>
    cases meta_ok with
    | false =>
      unfold CPSegmentInfo.create_segment at h
      simp at h
    | true =>
      unfold CPSegmentInfo.create_segment add_handle ConstantPoolSegment.mkSegment at h
      simp at h
      obtain ⟨h1, h2⟩ := h
      subst h2
      subst h1
      refine ⟨st.next_handle,
        ⟨(List.replicate info._reflen.toNat none).set argument_ref_index parameter⟩,
        rfl, ?_, ?_, ?_, rfl, ?_⟩
      · simp [resolve_handle]
      · simp
      · have hn : 1 ≤ info._reflen.toNat := by
          unfold fixed_ref_limit at hreflen
          omega
        obtain ⟨m, hm⟩ : ∃ m, info._reflen.toNat = m + 1 := ⟨info._reflen.toNat - 1, by omega⟩
        rw [hm, List.replicate_succ]
        simp [argument_ref_index]
      · simp [reachable_segs]

/-- Witness for C5: a normal creation under exSt. -/
theorem claim_C5_created_instance_active_witness :
    ∃ hid arr,
      ({ id := 0, info_param_kind := 1, _cseg := some 0, _refs := some 1 }
        : Segment)._refs = some hid ∧
      resolve_handle (CPSegmentInfo.create_segment exInfo (some 42) none true true exSt).2 hid
        = some arr ∧
      arr.elems.length = exInfo._reflen.toNat ∧
      arr.elems[argument_ref_index]? = some (some 42) ∧
      first_seg (CPSegmentInfo.create_segment exInfo (some 42) none true true exSt).2
        = some { id := 0, info_param_kind := 1, _cseg := some 0, _refs := some 1 } ∧
      ({ id := 0, info_param_kind := 1, _cseg := some 0, _refs := some 1 } : Segment)
        ∈ reachable_segs (CPSegmentInfo.create_segment exInfo (some 42) none true true exSt).2 :=
  claim_C5_created_instance_active exInfo (some 42) none true true exSt
    { id := 0, info_param_kind := 1, _cseg := some 0, _refs := some 1 }
    (CPSegmentInfo.create_segment exInfo (some 42) none true true exSt).2
    (by decide) (by decide)

/-- An inactive segment (no refs handle), used to exhibit that the
enclosing-instance activity requirement of C6 is not enforced. -/
def exInactiveSeg : Segment :=
  { id := 7, info_param_kind := JVM_PARAM_Class, _cseg := some 7, _refs := none }

/-- A combined (method-and-class) shape with no extra constants. -/
def exCombinedInfo : CPSegmentInfo :=
  { _segnum := 2, _flags := JVM_PARAM_MethodAndClass, _reflen := 3
  , _info_size_in_words := 4, _segment_size_in_words := 4
  , _constant_count := 0, cinfos := [] }

/-- Counterexample for C6: create_segment on a combined shape accepts an
enclosing instance that is not active (its refs handle is empty) and
wires the new instance's class link to it, so "the enclosing instance
must have been active at link time" does not hold on the code: no such
check exists. -/
theorem claim_C6_counterexample :
    exInactiveSeg.is_active = false ∧
    ((exCombinedInfo.create_segment (some 42) (some exInactiveSeg) true true exSt).1.map
        (fun s => s._cseg)) = some (some exInactiveSeg.id) := by decide

/-- C6 as amended: a class-only instance's class link is a self
reference; a method-only instance's class link is null; a combined
instance's class link is exactly the caller-supplied enclosing instance.
The code does not verify that the enclosing instance is active at link
time (that requirement is dropped from the claim). -/
theorem claim_C6_class_link_wiring (info : CPSegmentInfo) (parameter : Oop)
    (cseg : Option Segment) (heap_ok meta_ok : Bool) (st : JVMState)
    (seg : Segment) (st2 : JVMState)
    (h : info.create_segment parameter cseg heap_ok meta_ok st = (some seg, st2)) :
    (info.is_class = true → seg._cseg = some seg.id) ∧
    (info.is_method_only = true → cseg = none → seg._cseg = none) ∧
    (info.has_both = true → ∀ encl, cseg = some encl → seg._cseg = some encl.id) := by
  cases heap_ok with
  | false =>
    unfold CPSegmentInfo.create_segment at h
    simp at h
  | true =>
    cases meta_ok with
    | false =>
      unfold CPSegmentInfo.create_segment at h
      simp at h
    | true =>
      unfold CPSegmentInfo.create_segment add_handle ConstantPoolSegment.mkSegment at h
      simp at h
      obtain ⟨h1, h2⟩ := h
      subst h2
      subst h1
      refine ⟨?_, ?_, ?_⟩
      · intro hcls
        simp [hcls]
      · intro hmo hnone
        have hcls : info.is_class = false := by
          unfold CPSegmentInfo.is_method_only at hmo
          unfold CPSegmentInfo.is_class
          simp only [decide_eq_true_eq] at hmo
          simp [hmo, JVM_PARAM_MethodOnly, JVM_PARAM_Class]
        simp [hcls, hnone]
      · intro hboth encl hencl
        have hcls : info.is_class = false := by
          unfold CPSegmentInfo.has_both CPSegmentInfo.is_method_and_class at hboth
          unfold CPSegmentInfo.is_class
          simp only [decide_eq_true_eq] at hboth
          simp [hboth, JVM_PARAM_MethodAndClass, JVM_PARAM_Class]
        simp [hcls, hencl]

/-- Witness for C6 (amended): the combined shape links to the supplied
enclosing instance. -/
theorem claim_C6_class_link_wiring_witness :
    ({ id := 0, info_param_kind := 3, _cseg := some 7, _refs := some 1 } : Segment)._cseg
      = some exInactiveSeg.id :=
  (claim_C6_class_link_wiring exCombinedInfo (some 42) (some exInactiveSeg) true true exSt
      { id := 0, info_param_kind := 3, _cseg := some 7, _refs := some 1 }
      (exCombinedInfo.create_segment (some 42) (some exInactiveSeg) true true exSt).2
      (by decide)).2.2 (by decide) exInactiveSeg rfl

/-- Counterexample for C9: CPSegmentInfo::metaspace_pointers_do does not
present an instance-list-head pointer; the shape stores no such field
(segment_list_head() delegates to the ConstantPool), so the hook presents
the owning-pool pointer only. -/
theorem claim_C9_counterexample :
    decide (MetaPtrField.list_head ∈ CPSegmentInfo.metaspace_pointers_do) = false := by
  decide

/-- C9 as amended: ConstantPoolSegment::metaspace_pointers_do presents
exactly the shape pointer, the list-next pointer and the class-link
pointer; CPSegmentInfo::metaspace_pointers_do presents exactly the
owning-pool pointer (the instance-list head lives in the ConstantPool,
not in the shape); the heap refs handle is presented by neither hook. -/
theorem claim_C9_pointer_hooks :
    ConstantPoolSegment.metaspace_pointers_do
      = [MetaPtrField.info, MetaPtrField.segment_list_next, MetaPtrField.cseg] ∧
    CPSegmentInfo.metaspace_pointers_do = [MetaPtrField.pool] ∧
    decide (MetaPtrField.refs_handle ∈ ConstantPoolSegment.metaspace_pointers_do) = false ∧
    decide (MetaPtrField.refs_handle ∈ CPSegmentInfo.metaspace_pointers_do) = false ∧
    decide (MetaPtrField.list_head ∈ CPSegmentInfo.metaspace_pointers_do) = false := by
  decide
